import Mathlib

/-!
Verification development for the pyBiodatafuse graph generator
(`src/pyBiodatafuse/graph/generator.py`).

The Python module builds a NetworkX `MultiDiGraph` from a row-oriented
annotation table.  We give a shallow embedding of the module:

* Python scalars (strings, numbers, `None`/`NaN`) become `Value`;
  `pd.isna` holds exactly on the null value.
* Python dicts become association lists with first-match lookup and
  in-place replacement (`aget`, `aset`, `adel`), mirroring dict
  key-uniqueness and insertion order.
* `hash(frozenset(edge_attrs.items()))` is modelled by the list of the
  hashed items (`pyHash`): two attribute dicts with equal item sets hash
  equally, which is the only property the code relies on.
* The `MultiDiGraph` becomes `Graph`: an association list of nodes
  (label to data dict) and a list of keyed directed edges.  `add_node`
  with the `attr_dict` keyword replaces that single data entry, as
  NetworkX does for keyword attributes of an existing node; `add_edge`
  appends a new parallel edge with the next integer key and silently
  creates missing endpoint nodes with an empty data dict.
* Fallible paths (`NameError` from the reused loop variable, `KeyError`
  during finalization, `TypeError` from iterating a non-list cell)
  return `Except PyErr`.

Record field access `r[k]` is modelled by `rget` with default null; the
builders only read fields their source contract supplies, so a missing
field and a null field behave alike here.
-/

deriving instance DecidableEq for Except

namespace Biodatafuse

/-- Scalar attribute values: strings, numbers, and the null/NaN value
(`None` and float NaN are both null for `pd.isna`). -/
inductive Value where
  | vStr : String → Value
  | vNum : Int → Value
  | vNull : Value
deriving DecidableEq, Repr

/-- Values stored inside an `attr_dict` container: either a scalar or the
integer produced by `hash(frozenset(...))`, identified with the list of
hashed items. -/
inductive HVal where
  | scal : Value → HVal
  | hashv : List (String × Value) → HVal
deriving DecidableEq, Repr

/-- A flat Python dict of scalars, e.g. an annotation record or a node
attribute dict before storage. -/
abbrev SAttrs := List (String × Value)

/-- An `attr_dict` container: scalars plus possibly the `edge_hash` entry. -/
abbrev Attrs := List (String × HVal)

/-- Top-level node/edge data values: either a flat value or the
`attr_dict` container. -/
inductive AVal where
  | flat : HVal → AVal
  | dict : Attrs → AVal
deriving DecidableEq, Repr

/-- Top-level node/edge data dict (what NetworkX stores per node/edge). -/
abbrev Data := List (String × AVal)

/-- An annotation record: one flat mapping of fields. -/
abbrev Record := List (String × Value)

/-- Dict lookup: first matching key. -/
def aget {κ α : Type} [DecidableEq κ] : List (κ × α) → κ → Option α
  | [], _ => none
  | p :: t, k => if p.1 = k then some p.2 else aget t k

/-- Dict write `d[k] = v`: replace in place if the key exists, else append. -/
def aset {κ α : Type} [DecidableEq κ] : List (κ × α) → κ → α → List (κ × α)
  | [], k, v => [(k, v)]
  | p :: t, k, v => if p.1 = k then (k, v) :: t else p :: aset t k v

/-- Dict delete `del d[k]`: drop the entries carrying that key. -/
def adel {κ α : Type} [DecidableEq κ] : List (κ × α) → κ → List (κ × α)
  | [], _ => []
  | p :: t, k => if p.1 = k then adel t k else p :: adel t k

/-- Record field access `r[k]`, with a missing field reading as null. -/
def rget (r : Record) (k : String) : Value :=
  (aget r k).getD .vNull

/-- Model of `pd.isna`: true exactly on the null value. -/
def pdIsna (v : Value) : Bool :=
  v == .vNull

/-- Model of `hash(frozenset(a.items()))`: a stable identity determined by
the item set of the dict being hashed.  We identify the hash with the
item list itself: every builder constructs each hashed dict with one
fixed key order, so two dicts compared anywhere in this program have
equal item sets exactly when their item lists are equal. -/
def pyHash (a : SAttrs) : HVal :=
  .hashv a

/-- Inject a flat scalar dict into a container dict. -/
def scalars (a : SAttrs) : Attrs :=
  a.map (fun p => (p.1, HVal.scal p.2))

/-- The stored edge attribute dict after `edge_attrs["edge_hash"] = edge_hash`. -/
def withHash (a : SAttrs) : Attrs :=
  aset (scalars a) "edge_hash" (pyHash a)

/-- One keyed directed edge of the multigraph. -/
structure Edge where
  src : Value
  tgt : Value
  key : Nat
  data : Data
deriving DecidableEq, Repr

/-- The NetworkX `MultiDiGraph`: node data keyed by label, plus parallel
directed edges. -/
structure Graph where
  nodes : List (Value × Data)
  edges : List Edge
deriving DecidableEq, Repr

def emptyGraph : Graph := ⟨[], []⟩

/-- All parallel edges currently from `u` to `v`
(`g.get_edge_data(u, v)`, with `None` read as the empty dict). -/
def edgesBetween (g : Graph) (u v : Value) : List Edge :=
  g.edges.filter (fun e => e.src == u && e.tgt == v)

/-- Whether `g.has_edge(u, v)` holds (any edge between the ordered pair). -/
def hasEdgeB (g : Graph) (u v : Value) : Bool :=
  !(edgesBetween g u v).isEmpty

/-- Replace the `attr_dict` entry of the node labelled `l`. -/
def nupdate (ns : List (Value × Data)) (l : Value) (a : SAttrs) : List (Value × Data) :=
  ns.map (fun p => if p.1 = l then (p.1, aset p.2 "attr_dict" (.dict (scalars a))) else p)

/-- Model of `g.add_node(l, attr_dict=a)`: on an existing node the
`attr_dict` keyword attribute is replaced wholesale; on a new node the
data dict is exactly that one entry. -/
def add_node (g : Graph) (l : Value) (a : SAttrs) : Graph :=
  if g.nodes.any (fun p => p.1 == l) then
    { g with nodes := nupdate g.nodes l a }
  else
    { g with nodes := g.nodes ++ [(l, [("attr_dict", .dict (scalars a))])] }

/-- NetworkX creates a missing endpoint of `add_edge` with an empty data dict. -/
def ensureNode (g : Graph) (l : Value) : Graph :=
  if g.nodes.any (fun p => p.1 == l) then g
  else { g with nodes := g.nodes ++ [(l, [])] }

/-- The data dict of an edge added as
`g.add_edge(u, v, label=lbl, attr_dict=attrs)`. -/
def edgeDataOf (lbl : Value) (attrs : Attrs) : Data :=
  [("label", .flat (.scal lbl)), ("attr_dict", .dict attrs)]

/-- Model of `g.add_edge(u, v, label=lbl, attr_dict=attrs)`: append a new
parallel edge with the next integer key. -/
def add_edge (g : Graph) (u v : Value) (lbl : Value) (attrs : Attrs) : Graph :=
  let g1 := ensureNode (ensureNode g u) v
  { g1 with edges := g1.edges ++ [⟨u, v, (edgesBetween g1 u v).length, edgeDataOf lbl attrs⟩] }

/-- The identity hash stored on an edge, read as the builders read it
(`y["attr_dict"]["edge_hash"]`). -/
def hashOfEdgeData (d : Data) : Option HVal :=
  match aget d "attr_dict" with
  | some (.dict c) => aget c "edge_hash"
  | _ => none

/-- The duplicate test of the builders: some parallel edge between the
ordered pair carries the candidate identity.  (Every edge this system
adds carries `attr_dict.edge_hash`; theorems that depend on this test
assume it of the incoming graph.) -/
def dedupCheck (g : Graph) (u v : Value) (h : HVal) : Bool :=
  (edgesBetween g u v).any (fun e => hashOfEdgeData e.data == some h)

/-- A record field that is replaced by the empty string when null
(`dg["year_initial"] if not pd.isna(dg["year_initial"]) else ""`). -/
def orEmpty (v : Value) : Value :=
  if pdIsna v then .vStr "" else v

/-- Node attribute dict built by `add_disgenet_disease_subgraph`. -/
def disgenetNodeAttrs (dg : Record) : SAttrs :=
  [("source", .vStr "DisGeNET"),
   ("name", rget dg "disease_name"),
   ("id", rget dg "diseaseid"),
   ("labels", .vStr "Disease"),
   ("disease_id", rget dg "diseaseid"),
   ("disease_class", rget dg "disease_class"),
   ("disease_class_name", rget dg "disease_class_name"),
   ("disease_type", rget dg "disease_type"),
   ("disease_semantic_type", rget dg "disease_semantic_type")]

/-- Edge attribute dict built by `add_disgenet_disease_subgraph`
(before the hash is attached). -/
def disgenetEdgeAttrs (dg : Record) : SAttrs :=
  [("source", .vStr "DisGeNET"),
   ("label", .vStr "associated_with"),
   ("score", rget dg "score"),
   ("year_initial", orEmpty (rget dg "year_initial")),
   ("year_final", orEmpty (rget dg "year_final")),
   ("ei", orEmpty (rget dg "ei")),
   ("el", orEmpty (rget dg "el"))]

/-- Embedding of `add_disgenet_disease_subgraph`. -/
def add_disgenet_disease_subgraph (g : Graph) (gene_node_label : Value)
    (annot_list : List Record) : Graph :=
  annot_list.foldl (fun g dg =>
    if pdIsna (rget dg "disease_name") then g
    else
      let dg_node_label := rget dg "disease_name"
      let g := add_node g dg_node_label (disgenetNodeAttrs dg)
      let edge_hash := pyHash (disgenetEdgeAttrs dg)
      if dedupCheck g gene_node_label dg_node_label edge_hash then g
      else add_edge g gene_node_label dg_node_label (.vStr "associated_with")
             (withHash (disgenetEdgeAttrs dg))) g

/-- Embedding of `add_opentargets_location_subgraph`. -/
def add_opentargets_location_subgraph (g : Graph) (gene_node_label : Value)
    (annot_list : List Record) : Graph :=
  annot_list.foldl (fun g loc =>
    if pdIsna (rget loc "location") || pdIsna (rget loc "subcellular_loc") then g
    else
      let loc_node_label := rget loc "location"
      let loc_node_attrs : SAttrs :=
        [("source", .vStr "OpenTargets"),
         ("name", rget loc "location"),
         ("id", rget loc "loc_identifier"),
         ("labels", .vStr "Location"),
         ("subcellular_loc", rget loc "subcellular_loc")]
      let g := add_node g loc_node_label loc_node_attrs
      let edge_attrs : SAttrs := [("source", .vStr "OpenTargets"), ("label", .vStr "localized_in")]
      let edge_hash := pyHash edge_attrs
      if dedupCheck g gene_node_label loc_node_label edge_hash then g
      else add_edge g gene_node_label loc_node_label (.vStr "localized_in")
             (withHash edge_attrs)) g

/-- Embedding of `add_opentargets_go_subgraph`.  Note: unlike its sibling
builders, the source has no `pd.isna` guard on `go_name`. -/
def add_opentargets_go_subgraph (g : Graph) (gene_node_label : Value)
    (annot_list : List Record) : Graph :=
  annot_list.foldl (fun g go =>
    let go_node_label := rget go "go_name"
    let go_node_attrs : SAttrs :=
      [("source", .vStr "OpenTargets"),
       ("name", rget go "go_name"),
       ("id", rget go "go_id"),
       ("labels", .vStr "GO")]
    let g := add_node g go_node_label go_node_attrs
    let edge_attrs : SAttrs := [("source", .vStr "OpenTargets"), ("label", .vStr "part_of_go")]
    let edge_hash := pyHash edge_attrs
    if dedupCheck g gene_node_label go_node_label edge_hash then g
    else add_edge g gene_node_label go_node_label (.vStr "part_of_go")
           (withHash edge_attrs)) g

/-- Embedding of `add_opentargets_pathway_subgraph`. -/
def add_opentargets_pathway_subgraph (g : Graph) (gene_node_label : Value)
    (annot_list : List Record) : Graph :=
  annot_list.foldl (fun g pathway =>
    if pdIsna (rget pathway "pathway_id") then g
    else
      let pathway_node_label := rget pathway "pathway_name"
      let pathway_node_attrs : SAttrs :=
        [("source", .vStr "OpenTargets"),
         ("name", rget pathway "pathway_name"),
         ("id", rget pathway "pathway_id"),
         ("labels", .vStr "Pathway")]
      let g := add_node g pathway_node_label pathway_node_attrs
      let edge_attrs : SAttrs := [("source", .vStr "OpenTargets"), ("label", .vStr "part_of_pathway")]
      let edge_hash := pyHash edge_attrs
      if dedupCheck g gene_node_label pathway_node_label edge_hash then g
      else add_edge g gene_node_label pathway_node_label (.vStr "part_of_pathway")
             (withHash edge_attrs)) g

/-- Embedding of `add_opentargets_drug_subgraph`: direction is
(compound, gene) and the edge label is the record's `relation`. -/
def add_opentargets_drug_subgraph (g : Graph) (gene_node_label : Value)
    (annot_list : List Record) : Graph :=
  annot_list.foldl (fun g drug =>
    if pdIsna (rget drug "relation") then g
    else
      let drug_node_label := rget drug "drug_name"
      let drug_node_attrs : SAttrs :=
        [("source", .vStr "OpenTargets"),
         ("name", rget drug "drug_name"),
         ("id", rget drug "chembl_id"),
         ("labels", .vStr "Compound"),
         ("is_a_drug", .vStr "True")]
      let g := add_node g drug_node_label drug_node_attrs
      let edge_attrs : SAttrs := [("source", .vStr "OpenTargets"), ("label", rget drug "relation")]
      let edge_hash := pyHash edge_attrs
      if dedupCheck g drug_node_label gene_node_label edge_hash then g
      else add_edge g drug_node_label gene_node_label (rget drug "relation")
             (withHash edge_attrs)) g

/-- Embedding of `add_opentargets_disease_subgraph`. -/
def add_opentargets_disease_subgraph (g : Graph) (gene_node_label : Value)
    (annot_list : List Record) : Graph :=
  annot_list.foldl (fun g dg =>
    if pdIsna (rget dg "disease_name") then g
    else
      let dg_node_label := rget dg "disease_name"
      let dg_node_attrs : SAttrs :=
        [("source", .vStr "OpenTargets"),
         ("name", rget dg "disease_name"),
         ("id", rget dg "disease_id"),
         ("labels", .vStr "Disease"),
         ("therapeutic_areas", rget dg "therapeutic_areas")]
      let g := add_node g dg_node_label dg_node_attrs
      let edge_attrs : SAttrs := [("source", .vStr "OpenTargets"), ("label", .vStr "associated_with")]
      let edge_hash := pyHash edge_attrs
      if dedupCheck g gene_node_label dg_node_label edge_hash then g
      else add_edge g gene_node_label dg_node_label (.vStr "associated_with")
             (withHash edge_attrs)) g

/-- Embedding of `add_wikipathways_subgraph`. -/
def add_wikipathways_subgraph (g : Graph) (gene_node_label : Value)
    (annot_list : List Record) : Graph :=
  annot_list.foldl (fun g pathway =>
    if pdIsna (rget pathway "pathwayLabel") then g
    else
      let pathway_node_label := rget pathway "pathwayLabel"
      let pathway_node_attrs : SAttrs :=
        [("source", .vStr "WikiPathways"),
         ("name", rget pathway "pathwayLabel"),
         ("id", rget pathway "pathwayId"),
         ("labels", .vStr "Pathway"),
         ("gene_count", rget pathway "pathwayGeneCount")]
      let g := add_node g pathway_node_label pathway_node_attrs
      let edge_attrs : SAttrs := [("source", .vStr "WikiPathways"), ("label", .vStr "part_of_pathway")]
      let edge_hash := pyHash edge_attrs
      if dedupCheck g gene_node_label pathway_node_label edge_hash then g
      else add_edge g gene_node_label pathway_node_label (.vStr "part_of_pathway")
             (withHash edge_attrs)) g

/-- Embedding of `add_ppi_subgraph`: no record guard, no node creation;
only the edge `gene_node_label -> ppi["stringdb_link_to"]` with `score`. -/
def add_ppi_subgraph (g : Graph) (gene_node_label : Value)
    (annot_list : List Record) : Graph :=
  annot_list.foldl (fun g ppi =>
    let edge_attrs : SAttrs :=
      [("source", .vStr "STRING"),
       ("label", .vStr "interacts_with"),
       ("score", rget ppi "score")]
    let edge_hash := pyHash edge_attrs
    if dedupCheck g gene_node_label (rget ppi "stringdb_link_to") edge_hash then g
    else add_edge g gene_node_label (rget ppi "stringdb_link_to") (.vStr "interacts_with")
           (withHash edge_attrs)) g

/-- Embedding of `add_molmedb_gene_inhibitor`.  The source appends the
`reference_doi`/`reference_pmid` entries to `inhibitor_node_attrs` after
`add_node`, but NetworkX stores a reference to that same dict, so the
stored container carries them; we build the full dict up front. -/
def add_molmedb_gene_inhibitor (g : Graph) (gene_node_label : Value)
    (annot_list : List Record) : Graph :=
  annot_list.foldl (fun g inhibitor =>
    if pdIsna (rget inhibitor "InChIKey") then g
    else
      let inhibitor_node_label := rget inhibitor "label"
      let base : SAttrs :=
        [("source", .vStr "MolMeDB"),
         ("id", rget inhibitor "molmedb_id"),
         ("name", rget inhibitor "label"),
         ("InChIKey", rget inhibitor "InChIKey"),
         ("MolMeDB_id", rget inhibitor "molmedb_id"),
         ("labels", .vStr "Compound")]
      let base := if pdIsna (rget inhibitor "SMILES") then base
        else aset base "SMILES" (rget inhibitor "SMILES")
      let base := if pdIsna (rget inhibitor "pubchem_compound_id") then base
        else aset base "PubChem_compound_id" (rget inhibitor "pubchem_compound_id")
      let base := if pdIsna (rget inhibitor "chebi_id") then base
        else aset base "ChEBI_id" (rget inhibitor "chebi_id")
      let base := if pdIsna (rget inhibitor "drugbank_id") then base
        else aset base "DrugBank_id" (rget inhibitor "drugbank_id")
      let base := if pdIsna (rget inhibitor "source_doi") then base
        else aset base "reference_doi" (rget inhibitor "source_doi")
      let base := if pdIsna (rget inhibitor "source_pmid") then base
        else aset base "reference_pmid" (rget inhibitor "source_pmid")
      let g := add_node g inhibitor_node_label base
      let edge_attrs : SAttrs := [("source", .vStr "MolMeDB"), ("label", .vStr "inhibits")]
      let edge_hash := pyHash edge_attrs
      if dedupCheck g gene_node_label inhibitor_node_label edge_hash then g
      else add_edge g gene_node_label inhibitor_node_label (.vStr "inhibits")
           (withHash edge_attrs)) g

/-- Node attribute dict built by `add_bgee_subgraph`, including the
optional-field conditionals.  Note the source line
`annot_node_attrs["confidence_level"] = annot["drugbank_id"]`: the value
is read from the `drugbank_id` field. -/
def bgeeNodeAttrs (annot : Record) : SAttrs :=
  let base : SAttrs :=
    [("source", .vStr "Bgee"),
     ("name", rget annot "anatomical_entity_name"),
     ("id", rget annot "anatomical_entity_id"),
     ("labels", .vStr "Anatomical Entity"),
     ("anatomical_entity_id", rget annot "anatomical_entity_id"),
     ("anatomical_entity_name", rget annot "anatomical_entity_name")]
  let base := if pdIsna (rget annot "developmental_stage_id") then base
    else aset base "developmental_stage_id" (rget annot "developmental_stage_id")
  let base := if pdIsna (rget annot "developmental_stage_name") then base
    else aset base "developmental_stage_name" (rget annot "developmental_stage_name")
  let base := if pdIsna (rget annot "expression_level") then base
    else aset base "expression_level" (rget annot "expression_level")
  let base := if pdIsna (rget annot "confidence_level") then base
    else aset base "confidence_level" (rget annot "drugbank_id")
  base

/-- Embedding of `add_bgee_subgraph`. -/
def add_bgee_subgraph (g : Graph) (gene_node_label : Value)
    (annot_list : List Record) : Graph :=
  annot_list.foldl (fun g annot =>
    if pdIsna (rget annot "anatomical_entity_name") then g
    else
      let annot_node_label := rget annot "anatomical_entity_name"
      let g := add_node g annot_node_label (bgeeNodeAttrs annot)
      let edge_attrs : SAttrs := [("source", .vStr "Bgee"), ("label", .vStr "expressed_in")]
      let edge_hash := pyHash edge_attrs
      if dedupCheck g gene_node_label annot_node_label edge_hash then g
      else add_edge g gene_node_label annot_node_label (.vStr "expressed_in")
             (withHash edge_attrs)) g

/-- Embedding of `add_minerva_subgraph`: the node `labels` value is the
lowercase string and the hashed edge dict uses the key `type`. -/
def add_minerva_subgraph (g : Graph) (gene_node_label : Value)
    (annot_list : List Record) : Graph :=
  annot_list.foldl (fun g pathway =>
    if pdIsna (rget pathway "pathwayLabel") then g
    else
      let pathway_node_label := rget pathway "pathwayLabel"
      let pathway_node_attrs : SAttrs :=
        [("source", .vStr "MINERVA"),
         ("name", rget pathway "pathwayLabel"),
         ("id", rget pathway "pathwayId"),
         ("labels", .vStr "pathway"),
         ("gene_count", rget pathway "pathwayGeneCount")]
      let g := add_node g pathway_node_label pathway_node_attrs
      let edge_attrs : SAttrs := [("source", .vStr "MINERVA"), ("type", .vStr "part_of_pathway")]
      let edge_hash := pyHash edge_attrs
      if dedupCheck g gene_node_label pathway_node_label edge_hash then g
      else add_edge g gene_node_label pathway_node_label (.vStr "part_of_pathway")
             (withHash edge_attrs)) g

/-- The stored edge attribute dict of `add_drug_disease_subgraph`. -/
def ddEdgeAttrs : SAttrs :=
  [("source", .vStr "OpenTargets"), ("type", .vStr "treated_with")]

/-- Embedding of `add_drug_disease_subgraph`: the edge runs from the
record's `umls` disease identifier to the gene label, no node is created,
and the duplicate test is plain `g.has_edge` on the ordered pair. -/
def add_drug_disease_subgraph (g : Graph) (gene_node_label_2 : Value)
    (annot_list : List Record) : Graph :=
  annot_list.foldl (fun g ddi =>
    if hasEdgeB g (rget ddi "umls") gene_node_label_2 then g
    else add_edge g (rget ddi "umls") gene_node_label_2 (.vStr "treated_with")
           (withHash ddEdgeAttrs)) g

/-- Content of one table cell after the `json.loads(json.dumps(...))`
round trip (which is the identity on these shapes): a list of records,
`None`, or a float scalar (the NaN missing-value sentinel). -/
inductive Cell where
  | clist : List Record → Cell
  | cnull : Cell
  | cfloat : Cell
deriving DecidableEq, Repr

/-- One row of the fused annotation table. -/
structure Row where
  identifier : Value
  target : Value
  targetSource : String
  deas : List (String × Value)
  cells : List (String × Cell)
deriving DecidableEq, Repr

/-- The fused annotation table (all rows share one column set). -/
structure Table where
  rows : List Row
deriving DecidableEq, Repr

/-- Python-level failures that can escape `generate_networkx_graph`. -/
inductive PyErr where
  | nameErr : PyErr
  | keyErr : PyErr
  | typeErr : PyErr
deriving DecidableEq, Repr

/-- Gene node attribute dict of the row loop: the literal dict plus one
entry per `_dea` column with the suffix stripped. -/
def geneNodeAttrs (r : Row) : SAttrs :=
  let base : SAttrs :=
    [("source", .vStr "BridgeDB"),
     ("labels", r.identifier),
     ("id", r.target),
     ("node_type", .vStr "Gene")]
  let base := aset base r.targetSource r.target
  r.deas.foldl (fun a p => aset a (p.1.dropRight 4) p.2) base

/-- The builder registry `func_dict`, in its insertion order. -/
def funcList : List (String × (Graph → Value → List Record → Graph)) :=
  [("DisGeNET", add_disgenet_disease_subgraph),
   ("OpenTargets_Location", add_opentargets_location_subgraph),
   ("GO_Process", add_opentargets_go_subgraph),
   ("Reactome_Pathways", add_opentargets_pathway_subgraph),
   ("ChEMBL_Drugs", add_opentargets_drug_subgraph),
   ("OpenTargets_Diseases", add_opentargets_disease_subgraph),
   ("WikiPathways", add_wikipathways_subgraph),
   ("MINERVA", add_minerva_subgraph),
   ("transporter_inhibitor", add_molmedb_gene_inhibitor),
   ("Bgee", add_bgee_subgraph)]

/-- Registry-column cell parse: `if not isinstance(annot_list, list):
annot_list = []` — any non-list becomes the empty record list. -/
def registryParse : Cell → List Record
  | .clist l => l
  | .cnull => []
  | .cfloat => []

/-- Interaction-pass cell parse: only `None` is replaced by the empty
list; iterating any other non-list raises a `TypeError`. -/
def ppiParse : Cell → Except PyErr (List Record)
  | .clist l => .ok l
  | .cnull => .ok []
  | .cfloat => .error .typeErr

/-- Drug-disease-pass cell parse: only a float (the NaN sentinel) is
replaced by the empty list; iterating `None` raises a `TypeError`. -/
def ddParse : Cell → Except PyErr (List Record)
  | .clist l => .ok l
  | .cfloat => .ok []
  | .cnull => .error .typeErr

/-- Row cell access `row[c]`: a missing column raises a `KeyError`. -/
def cellOf (r : Row) (c : String) : Except PyErr Cell :=
  match aget r.cells c with
  | some x => .ok x
  | none => .error .keyErr

/-- First pass, one row: upsert the gene node, then dispatch every
registry column present in the row. -/
def processRow (g : Graph) (r : Row) : Graph :=
  let g := add_node g r.identifier (geneNodeAttrs r)
  funcList.foldl (fun g kv =>
    match aget r.cells kv.1 with
    | some cell => kv.2 g r.identifier (registryParse cell)
    | none => g) g

/-- One iteration of the interaction pass: read the row's `stringdb`
cell, parse it, dispatch the builder; the first failure aborts the run. -/
def ppiStep (glabel : Value) (g : Graph) (r : Row) : Except PyErr Graph :=
  match cellOf r "stringdb" with
  | .error e => .error e
  | .ok cell =>
    match ppiParse cell with
    | .error e => .error e
    | .ok l => .ok (add_ppi_subgraph g glabel l)

/-- Second pass: iterate all rows, but call `add_ppi_subgraph` with the
`gene_node_label` left over from the first row loop. -/
def ppiPass (glabel : Value) : Graph → List Row → Except PyErr Graph
  | g, [] => .ok g
  | g, r :: t =>
    match ppiStep glabel g r with
    | .error e => .error e
    | .ok g1 => ppiPass glabel g1 t

/-- After `pd.concat`, every original row acquires a `drug_diseases`
column holding the NaN float sentinel if it did not already have one. -/
def addDDCell (r : Row) : Row :=
  if r.cells.any (fun p => p.1 == "drug_diseases") then r
  else { r with cells := r.cells ++ [("drug_diseases", .cfloat)] }

/-- One iteration of the drug-disease pass; here the gene label is
rebound per row (`gene_node_label_2 = row["identifier"]`). -/
def ddStep (g : Graph) (r : Row) : Except PyErr Graph :=
  match cellOf r "drug_diseases" with
  | .error e => .error e
  | .ok cell =>
    match ddParse cell with
    | .error e => .error e
    | .ok l => .ok (add_drug_disease_subgraph g r.identifier l)

/-- Third pass over the concatenated rows. -/
def ddPass : Graph → List Row → Except PyErr Graph
  | g, [] => .ok g
  | g, r :: t =>
    match ddStep g r with
    | .error e => .error e
    | .ok g1 => ddPass g1 t

/-- Option-valued map used for the finalization traversals. -/
def omap {α β : Type} (f : α → Option β) : List α → Option (List β)
  | [] => some []
  | a :: t =>
    match f a, omap f t with
    | some b, some bs => some (b :: bs)
    | _, _ => none

/-- One step of the node finalization loop:
`if v is not None: g.nodes[node][k] = v`. -/
def nstep (acc : Data) (kv : String × HVal) : Data :=
  if kv.2 == HVal.scal .vNull then acc else aset acc kv.1 (.flat kv.2)

/-- Node finalization body: promote every non-null container entry to the
top level, then delete the container entry. -/
def promoteNode (d : Data) (c : Attrs) : Data :=
  adel (c.foldl nstep d) "attr_dict"

/-- Finalize one node's data; a node without an `attr_dict` entry makes
the pass raise (`KeyError`). -/
def finalizeNodeData (d : Data) : Option Data :=
  match aget d "attr_dict" with
  | some (.dict c) => some (promoteNode d c)
  | some (.flat _) => none
  | none => none

/-- One step of the edge finalization loop:
`if y is not None and x != "edge_hash": g[u][v][k][x] = y`. -/
def estep (acc : Data) (kv : String × HVal) : Data :=
  if kv.2 == HVal.scal .vNull || kv.1 == "edge_hash" then acc
  else aset acc kv.1 (.flat kv.2)

/-- Edge finalization body: promote every non-null container entry except
`edge_hash`, then delete the container entry. -/
def promoteEdge (d : Data) (c : Attrs) : Data :=
  adel (c.foldl estep d) "attr_dict"

/-- Finalize one edge's data; the pass is guarded by
`if "attr_dict" in g[u][v][k]`, so an edge without the container passes
through unchanged. -/
def finalizeEdgeData (d : Data) : Option Data :=
  match aget d "attr_dict" with
  | some (.dict c) => some (promoteEdge d c)
  | some (.flat _) => none
  | none => some d

/-- The finalization pass over the whole graph (nodes, then edges). -/
def finalizeGraph (g : Graph) : Option Graph :=
  match omap (fun p => (finalizeNodeData p.2).map (fun d => (p.1, d))) g.nodes,
        omap (fun e => (finalizeEdgeData e.data).map (fun d => { e with data := d })) g.edges with
  | some ns, some es => some ⟨ns, es⟩
  | _, _ => none

/-- Embedding of `generate_networkx_graph`.  After the row loop the
Python loop variables `row` and `gene_node_label` hold the last row's
values; an empty table leaves them unbound, so `"stringdb" in row`
raises a `NameError`.  The drug-disease pass is guarded by
`"drug_diseases" in row`, i.e. by the columns of that stale last row of
the original table, checked after the concatenation. -/
def generate_networkx_graph (fuse_df : Table) (drug_disease : Option Table) :
    Except PyErr Graph :=
  let g0 := fuse_df.rows.foldl processRow emptyGraph
  match fuse_df.rows.getLast? with
  | none => .error .nameErr
  | some lastRow =>
    let glabel := lastRow.identifier
    let r1 : Except PyErr Graph :=
      if lastRow.cells.any (fun p => p.1 == "stringdb") then ppiPass glabel g0 fuse_df.rows
      else .ok g0
    match r1 with
    | .error e => .error e
    | .ok g1 =>
      let r2 : Except PyErr Graph :=
        match drug_disease with
        | none => .ok g1
        | some dd =>
          let rows2 := fuse_df.rows.map addDDCell ++ dd.rows
          if lastRow.cells.any (fun p => p.1 == "drug_diseases") then ddPass g1 rows2
          else .ok g1
      match r2 with
      | .error e => .error e
      | .ok g2 =>
        match finalizeGraph g2 with
        | some gf => .ok gf
        | none => .error .keyErr

/-- Attribute of a node of the graph, by label and key. -/
def nodeAttr (g : Graph) (l : Value) (k : String) : Option AVal :=
  match aget g.nodes l with
  | some d => aget d k
  | none => none

/-- The `attr_dict` container of a node, when present. -/
def containerOf (g : Graph) (l : Value) : Option Attrs :=
  match nodeAttr g l "attr_dict" with
  | some (.dict c) => some c
  | _ => none

/-- A generic gene-row constructor used by the concrete test tables. -/
def mkRow (name : String) (cells : List (String × Cell)) : Row :=
  ⟨.vStr name, .vStr (name ++ "-tgt"), "Ensembl", [], cells⟩

/-- A graph holding one gene node, the state in which a builder is invoked. -/
def gdemo : Graph :=
  add_node emptyGraph (.vStr "G") [("source", .vStr "BridgeDB"), ("node_type", .vStr "Gene")]

/-- A DisGeNET record with a non-null `disease_class`. -/
def c1_rec1 : Record :=
  [("disease_name", .vStr "X"), ("diseaseid", .vStr "C0001"),
   ("disease_class", .vStr "C04"), ("disease_class_name", .vStr "Neoplasms"),
   ("disease_type", .vStr "disease"), ("disease_semantic_type", .vStr "T047"),
   ("score", .vNum 8), ("year_initial", .vNull), ("year_final", .vNull),
   ("ei", .vNull), ("el", .vNull)]

/-- The same disease as `c1_rec1` but with a null `disease_class`. -/
def c1_rec2 : Record :=
  [("disease_name", .vStr "X"), ("diseaseid", .vStr "C0001"),
   ("disease_class", .vNull), ("disease_class_name", .vStr "Neoplasms"),
   ("disease_type", .vStr "disease"), ("disease_semantic_type", .vStr "T047"),
   ("score", .vNum 5), ("year_initial", .vNull), ("year_final", .vNull),
   ("ei", .vNull), ("el", .vNull)]

def c1_two : Graph := add_disgenet_disease_subgraph gdemo (.vStr "G") [c1_rec1, c1_rec2]

def c1_one : Graph := add_disgenet_disease_subgraph gdemo (.vStr "G") [c1_rec1]

/-- A GO record whose primary identifying field `go_name` is null. -/
def c2_rec : Record := [("go_name", .vNull), ("go_id", .vStr "GO:0001")]

def c2_res : Graph := add_opentargets_go_subgraph gdemo (.vStr "G") [c2_rec]

/-- A Bgee record with a non-null `confidence_level` and a distinct
`drugbank_id` value, separating the two fields. -/
def c8_rec : Record :=
  [("anatomical_entity_name", .vStr "blood"), ("anatomical_entity_id", .vStr "UBERON:0000178"),
   ("developmental_stage_id", .vNull), ("developmental_stage_name", .vNull),
   ("expression_level", .vNull), ("confidence_level", .vStr "gold"),
   ("drugbank_id", .vStr "DB00999")]

def c8_res : Graph := add_bgee_subgraph gdemo (.vStr "G") [c8_rec]

/-- Three gene rows; only the first carries an interaction record, and it
links to the second row's gene. -/
def c5_tbl : Table :=
  ⟨[mkRow "G1" [("stringdb", .clist [[("stringdb_link_to", .vStr "G2"), ("score", .vNum 900)]])],
    mkRow "G2" [("stringdb", .cnull)],
    mkRow "G3" [("stringdb", .cnull)]]⟩

/-- One gene row without a `drug_diseases` column. -/
def c6_tbl : Table := ⟨[mkRow "G1" []]⟩

/-- A drug-disease table with one treatment record for that gene. -/
def c6_dd : Table := ⟨[mkRow "G1" [("drug_diseases", .clist [[("umls", .vStr "C0011849")]])]]⟩

/-- One gene row whose interaction cell is the NaN float sentinel. -/
def c7_badTbl : Table := ⟨[mkRow "G1" [("stringdb", .cfloat)]]⟩

/-- One gene row whose registry (DisGeNET) cell is the NaN float sentinel. -/
def c7_okTbl : Table := ⟨[mkRow "G1" [("DisGeNET", .cfloat)]]⟩

theorem aget_aset_self {κ α : Type} [DecidableEq κ] (l : List (κ × α)) (k : κ) (v : α) :
    aget (aset l k v) k = some v := by
  induction l with
  | nil => simp [aset, aget]
  | cons p t ih =>
    by_cases h : p.1 = k
    · simp [aset, h, aget]
    · simp [aset, h, aget, ih]

theorem aget_aset_ne {κ α : Type} [DecidableEq κ] (l : List (κ × α)) (k k' : κ) (v : α)
    (h : k' ≠ k) : aget (aset l k v) k' = aget l k' := by
  have hkk : k ≠ k' := fun hh => h hh.symm
  induction l with
  | nil => simp [aset, aget, hkk]
  | cons p t ih =>
    by_cases hp : p.1 = k
    · have hp' : p.1 ≠ k' := by rw [hp]; exact hkk
      simp [aset, hp, aget, hkk, hp']
    · simp [aset, hp, aget, ih]

theorem aset_aset_self {κ α : Type} [DecidableEq κ] (l : List (κ × α)) (k : κ) (v : α) :
    aset (aset l k v) k v = aset l k v := by
  induction l with
  | nil => simp [aset]
  | cons p t ih =>
    by_cases h : p.1 = k
    · simp [aset, h]
    · simp [aset, h, ih]

theorem aget_adel_self {κ α : Type} [DecidableEq κ] (l : List (κ × α)) (k : κ) :
    aget (adel l k) k = none := by
  induction l with
  | nil => simp [adel, aget]
  | cons p t ih =>
    by_cases h : p.1 = k
    · simpa [adel, h] using ih
    · simpa [adel, h, aget] using ih

theorem aget_adel_ne {κ α : Type} [DecidableEq κ] (l : List (κ × α)) (k k' : κ)
    (h : k' ≠ k) : aget (adel l k) k' = aget l k' := by
  have hkk : ¬(k = k') := fun hh => h hh.symm
  induction l with
  | nil => simp [adel, aget]
  | cons p t ih =>
    by_cases hp : p.1 = k
    · simpa [adel, hp, aget, hkk] using ih
    · by_cases hk : p.1 = k'
      · simp [adel, hp, aget, hk, h]
      · simpa [adel, hp, aget, hk] using ih

theorem aget_append {κ α : Type} [DecidableEq κ] (l m : List (κ × α)) (k : κ) :
    aget (l ++ m) k = (aget l k).orElse (fun _ => aget m k) := by
  induction l with
  | nil => simp [aget]
  | cons p t ih =>
    by_cases h : p.1 = k
    · simp [aget, h]
    · simp [aget, h, ih]

theorem aget_eq_none_iff {κ α : Type} [DecidableEq κ] (l : List (κ × α)) (k : κ) :
    aget l k = none ↔ ∀ p ∈ l, p.1 ≠ k := by
  induction l with
  | nil => simp [aget]
  | cons p t ih =>
    by_cases h : p.1 = k
    · simp [aget, h]
    · simp [aget, h, ih]

theorem add_node_edges (g : Graph) (l : Value) (a : SAttrs) :
    (add_node g l a).edges = g.edges := by
  unfold add_node; split <;> rfl

theorem ensureNode_edges (g : Graph) (l : Value) :
    (ensureNode g l).edges = g.edges := by
  unfold ensureNode; split <;> rfl

theorem edgesBetween_add_node (g : Graph) (l : Value) (a : SAttrs) (u v : Value) :
    edgesBetween (add_node g l a) u v = edgesBetween g u v := by
  unfold edgesBetween; rw [add_node_edges]

theorem edgesBetween_ensureNode (g : Graph) (l : Value) (u v : Value) :
    edgesBetween (ensureNode g l) u v = edgesBetween g u v := by
  unfold edgesBetween; rw [ensureNode_edges]

theorem add_edge_edges (g : Graph) (u v lbl : Value) (attrs : Attrs) :
    (add_edge g u v lbl attrs).edges
      = g.edges ++ [⟨u, v, (edgesBetween g u v).length, edgeDataOf lbl attrs⟩] := by
  unfold add_edge
  simp only [ensureNode_edges, edgesBetween_ensureNode]

theorem edgesBetween_add_edge_self (g : Graph) (u v lbl : Value) (attrs : Attrs) :
    edgesBetween (add_edge g u v lbl attrs) u v
      = edgesBetween g u v ++ [⟨u, v, (edgesBetween g u v).length, edgeDataOf lbl attrs⟩] := by
  show (add_edge g u v lbl attrs).edges.filter _ = _
  rw [add_edge_edges, List.filter_append]
  simp [edgesBetween]

theorem edgesBetween_add_edge_ne (g : Graph) (u v lbl : Value) (attrs : Attrs)
    (u' v' : Value) (h : ¬(u' = u ∧ v' = v)) :
    edgesBetween (add_edge g u v lbl attrs) u' v' = edgesBetween g u' v' := by
  show (add_edge g u v lbl attrs).edges.filter _ = _
  rw [add_edge_edges, List.filter_append]
  have hfalse : ((u == u') && (v == v')) = false := by
    by_cases hu : u = u'
    · by_cases hv : v = v'
      · exact absurd ⟨hu.symm, hv.symm⟩ h
      · simp [hv]
    · simp [hu]
  simp [edgesBetween, hfalse]

theorem hashOf_new_edge (lbl : Value) (ea : SAttrs) :
    hashOfEdgeData (edgeDataOf lbl (withHash ea)) = some (pyHash ea) := by
  unfold hashOfEdgeData edgeDataOf withHash
  simp [aget, aget_aset_self]

theorem any_key_eq_false {ns : List (Value × Data)} {l : Value}
    (h : ns.any (fun p => p.1 == l) = false) : ∀ p ∈ ns, p.1 ≠ l := by
  intro p hp
  have := List.any_eq_false.mp h p hp
  simpa using this

theorem aget_of_any_false {ns : List (Value × Data)} {l : Value}
    (h : ns.any (fun p => p.1 == l) = false) : aget ns l = none :=
  (aget_eq_none_iff ns l).mpr (any_key_eq_false h)

theorem aget_nupdate_self (ns : List (Value × Data)) (l : Value) (a : SAttrs) :
    aget (nupdate ns l a) l
      = (aget ns l).map (fun d => aset d "attr_dict" (.dict (scalars a))) := by
  induction ns with
  | nil => simp [nupdate, aget]
  | cons p t ih =>
    by_cases hp : p.1 = l
    · simp [nupdate, aget, hp]
    · simpa [nupdate, aget, hp] using ih

theorem nupdate_keys (ns : List (Value × Data)) (l : Value) (a : SAttrs) :
    (nupdate ns l a).map Prod.fst = ns.map Prod.fst := by
  induction ns with
  | nil => rfl
  | cons p t ih =>
    by_cases hp : p.1 = l
    · simpa [nupdate, hp] using ih
    · simpa [nupdate, hp] using ih

theorem any_nupdate (ns : List (Value × Data)) (l w : Value) (a : SAttrs) :
    (nupdate ns l a).any (fun p => p.1 == w) = ns.any (fun p => p.1 == w) := by
  induction ns with
  | nil => rfl
  | cons p t ih =>
    simp only [nupdate, List.map_cons, List.any_cons] at ih ⊢
    by_cases hp : p.1 = l
    · simp only [hp, if_true]
      rw [ih]
    · simp only [hp, if_false]
      rw [ih]

theorem any_add_node_self (g : Graph) (l : Value) (a : SAttrs) :
    (add_node g l a).nodes.any (fun p => p.1 == l) = true := by
  unfold add_node
  by_cases h : g.nodes.any (fun p => p.1 == l) = true
  · simp only [h, if_true]
    rw [any_nupdate]; exact h
  · simp only [h, if_false]
    simp

theorem any_add_node_mono (g : Graph) (l w : Value) (a : SAttrs)
    (h : g.nodes.any (fun p => p.1 == w) = true) :
    (add_node g l a).nodes.any (fun p => p.1 == w) = true := by
  unfold add_node
  split
  · rw [any_nupdate]; exact h
  · simp [List.any_append, h]

theorem add_node_nodes_pos (g : Graph) (l : Value) (a : SAttrs)
    (h : g.nodes.any (fun p => p.1 == l) = true) :
    (add_node g l a).nodes = nupdate g.nodes l a := by
  unfold add_node
  rw [if_pos h]

theorem add_node_nodes_neg (g : Graph) (l : Value) (a : SAttrs)
    (h : ¬g.nodes.any (fun p => p.1 == l) = true) :
    (add_node g l a).nodes = g.nodes ++ [(l, [("attr_dict", AVal.dict (scalars a))])] := by
  unfold add_node
  rw [if_neg h]

theorem nodeAttr_add_node_self (g : Graph) (l : Value) (a : SAttrs) :
    nodeAttr (add_node g l a) l "attr_dict" = some (.dict (scalars a)) := by
  unfold nodeAttr
  by_cases h : g.nodes.any (fun p => p.1 == l) = true
  · rw [add_node_nodes_pos g l a h, aget_nupdate_self]
    cases hg : aget g.nodes l with
    | none =>
      obtain ⟨p, hp, hpl⟩ := List.any_eq_true.mp h
      exact absurd (by simpa using hpl) ((aget_eq_none_iff _ _).mp hg p hp)
    | some d => simp [aget_aset_self]
  · rw [add_node_nodes_neg g l a h, aget_append,
      aget_of_any_false (Bool.eq_false_iff.mpr h)]
    simp [aget]

theorem aget_ensureNode_preserved (g : Graph) (l w : Value) (d : Data)
    (h : aget g.nodes w = some d) : aget (ensureNode g l).nodes w = some d := by
  unfold ensureNode
  split
  · exact h
  · rw [aget_append, h]; rfl

theorem add_edge_nodes (g : Graph) (u v lbl : Value) (attrs : Attrs) :
    (add_edge g u v lbl attrs).nodes = (ensureNode (ensureNode g u) v).nodes := by
  unfold add_edge
  rfl

theorem aget_add_edge_preserved (g : Graph) (u v lbl : Value) (attrs : Attrs)
    (w : Value) (d : Data) (h : aget g.nodes w = some d) :
    aget (add_edge g u v lbl attrs).nodes w = some d := by
  rw [add_edge_nodes]
  exact aget_ensureNode_preserved _ _ _ _ (aget_ensureNode_preserved _ _ _ _ h)

theorem mem_add_node_self (g : Graph) (l : Value) (a : SAttrs) :
    ∀ p ∈ (add_node g l a).nodes, p.1 = l →
      aset p.2 "attr_dict" (AVal.dict (scalars a)) = p.2 := by
  intro p hp hpl
  by_cases h : g.nodes.any (fun p => p.1 == l) = true
  · rw [add_node_nodes_pos g l a h] at hp
    obtain ⟨q, hq, hfq⟩ := List.mem_map.mp hp
    by_cases hql : q.1 = l
    · simp only [hql, if_true] at hfq
      rw [← hfq]
      simp [aset_aset_self]
    · simp only [hql, if_false] at hfq
      exact absurd (hfq ▸ hpl) hql
  · rw [add_node_nodes_neg g l a h] at hp
    rcases List.mem_append.mp hp with hin | hone
    · exact absurd hpl (any_key_eq_false (Bool.eq_false_iff.mpr h) p hin)
    · have : p = (l, [("attr_dict", AVal.dict (scalars a))]) := by simpa using hone
      rw [this]
      simp [aset]

theorem mem_ensureNode (g : Graph) (u l : Value)
    (hl : g.nodes.any (fun p => p.1 == l) = true) :
    ∀ p ∈ (ensureNode g u).nodes, p.1 = l → p ∈ g.nodes := by
  intro p hp hpl
  unfold ensureNode at hp
  by_cases h : g.nodes.any (fun p => p.1 == u) = true
  · simpa [h] using hp
  · simp only [h, if_false] at hp
    rcases List.mem_append.mp hp with hin | hone
    · exact hin
    · have hpu : p = (u, []) := by simpa using hone
      have : u = l := by rw [hpu] at hpl; exact hpl
      rw [this] at h
      exact absurd hl h

theorem any_ensureNode_mono (g : Graph) (u w : Value)
    (h : g.nodes.any (fun p => p.1 == w) = true) :
    (ensureNode g u).nodes.any (fun p => p.1 == w) = true := by
  unfold ensureNode
  split
  · exact h
  · simp [List.any_append, h]

theorem add_node_eq_self (g : Graph) (l : Value) (a : SAttrs)
    (hex : g.nodes.any (fun p => p.1 == l) = true)
    (h : ∀ p ∈ g.nodes, p.1 = l → aset p.2 "attr_dict" (AVal.dict (scalars a)) = p.2) :
    add_node g l a = g := by
  have hnup : nupdate g.nodes l a = g.nodes := by
    have hcong : ∀ p ∈ g.nodes,
        (if p.1 = l then (p.1, aset p.2 "attr_dict" (AVal.dict (scalars a))) else p) = id p := by
      intro p hp
      by_cases hpl : p.1 = l
      · rw [if_pos hpl, h p hp hpl]
        rfl
      · rw [if_neg hpl]
        rfl
    calc nupdate g.nodes l a = g.nodes.map id := List.map_congr_left hcong
      _ = g.nodes := List.map_id _
  unfold add_node
  rw [if_pos hex, hnup]

theorem dedupCheck_eq_false (g : Graph) (u v : Value) (h : HVal)
    (hall : ∀ e ∈ edgesBetween g u v, hashOfEdgeData e.data ≠ some h) :
    dedupCheck g u v h = false := by
  unfold dedupCheck
  rw [List.any_eq_false]
  intro e he
  simpa using hall e he

theorem dedupCheck_after_add (g : Graph) (u v lbl : Value) (ea : SAttrs) :
    dedupCheck (add_edge g u v lbl (withHash ea)) u v (pyHash ea) = true := by
  unfold dedupCheck
  rw [edgesBetween_add_edge_self, List.any_append]
  simp [hashOf_new_edge]

theorem aget_nodes_ne_none_of_nodeAttr {g : Graph} {l : Value} {k : String} {x : AVal}
    (h : nodeAttr g l k = some x) : aget g.nodes l ≠ none := by
  unfold nodeAttr at h
  intro hn
  rw [hn] at h
  exact Option.noConfusion h

theorem nodeAttr_add_edge (g : Graph) (u v lbl : Value) (attrs : Attrs) (w : Value)
    (k : String) (hw : aget g.nodes w ≠ none) :
    nodeAttr (add_edge g u v lbl attrs) w k = nodeAttr g w k := by
  unfold nodeAttr
  cases hd : aget g.nodes w with
  | none => exact absurd hd hw
  | some d => rw [aget_add_edge_preserved g u v lbl attrs w d hd]

theorem any_add_edge_mono (g : Graph) (u v lbl : Value) (attrs : Attrs) (w : Value)
    (h : g.nodes.any (fun p => p.1 == w) = true) :
    (add_edge g u v lbl attrs).nodes.any (fun p => p.1 == w) = true := by
  rw [add_edge_nodes]
  exact any_ensureNode_mono _ _ _ (any_ensureNode_mono _ _ _ h)

/-- Claim C1, counterexample: the claim says a re-upserted node keeps the
union of all contributions and a null value never erases an existing one.
On the code, upserting disease `X` first with `disease_class = "C04"` and
then with a null `disease_class` leaves the finalized node with no
`disease_class` attribute at all, although processing the first record
alone yields `disease_class = "C04"`: the second upsert replaced the
whole container, so the union/no-null-overwrite property fails. -/
theorem c1_upsert_union_counterexample :
    (finalizeGraph c1_one).map (fun gf => nodeAttr gf (.vStr "X") "disease_class")
        = some (some (.flat (.scal (.vStr "C04"))))
    ∧ (finalizeGraph c1_two).map (fun gf => nodeAttr gf (.vStr "X") "disease_class")
        = some none := by
  decide

/-- Claim C1, amended: upserting a node again does not merge attribute
mappings; `g.add_node(label, attr_dict=attrs)` replaces the whole
`attr_dict` container, so after processing two records deriving the same
disease label the node's container is exactly the attribute dict of the
last record, with every earlier contribution discarded. -/
theorem c1_upsert_replaces_container (g : Graph) (gl : Value) (dg1 dg2 : Record)
    (h1 : pdIsna (rget dg1 "disease_name") = false)
    (h2 : pdIsna (rget dg2 "disease_name") = false)
    (heq : rget dg2 "disease_name" = rget dg1 "disease_name") :
    nodeAttr (add_disgenet_disease_subgraph g gl [dg1, dg2])
        (rget dg1 "disease_name") "attr_dict"
      = some (.dict (scalars (disgenetNodeAttrs dg2))) := by
  have key : ∀ g0 : Graph,
      nodeAttr (add_disgenet_disease_subgraph g0 gl [dg2])
          (rget dg2 "disease_name") "attr_dict"
        = some (.dict (scalars (disgenetNodeAttrs dg2))) := by
    intro g0
    simp only [add_disgenet_disease_subgraph, List.foldl_cons, List.foldl_nil]
    rw [if_neg (by simp [h2])]
    split
    · exact nodeAttr_add_node_self g0 _ _
    · have hne := aget_nodes_ne_none_of_nodeAttr
        (nodeAttr_add_node_self g0 (rget dg2 "disease_name") (disgenetNodeAttrs dg2))
      rw [nodeAttr_add_edge _ _ _ _ _ _ _ hne]
      exact nodeAttr_add_node_self g0 _ _
  have hsplit : add_disgenet_disease_subgraph g gl [dg1, dg2]
      = add_disgenet_disease_subgraph (add_disgenet_disease_subgraph g gl [dg1]) gl [dg2] := by
    simp only [add_disgenet_disease_subgraph, List.foldl_cons, List.foldl_nil]
  rw [hsplit, ← heq]
  exact key _

/-- Claim C1, witness for the amended theorem at the concrete two-record
input. -/
theorem c1_upsert_replaces_container_witness :
    nodeAttr (add_disgenet_disease_subgraph gdemo (.vStr "G") [c1_rec1, c1_rec2])
        (rget c1_rec1 "disease_name") "attr_dict"
      = some (.dict (scalars (disgenetNodeAttrs c1_rec2))) :=
  c1_upsert_replaces_container gdemo (.vStr "G") c1_rec1 c1_rec2
    (by decide) (by decide) (by decide)

/-- Claim C2: the claim says every builder skips a record whose primary
identifying field is null.  The GO builder has no such guard: on a record
with a null `go_name` it creates a node labelled by the null value and a
`part_of_go` edge from the gene to it. -/
theorem c2_go_null_name_creates_node_and_edge :
    c2_res.nodes.any (fun p => p.1 == Value.vNull) = true
    ∧ (edgesBetween c2_res (.vStr "G") .vNull).length = 1 := by
  decide

/-- Claim C5: in the interaction pass the builder is called with the
`gene_node_label` left over from the first row loop, i.e. the last row's
gene.  On a three-row table where only row `G1` carries an interaction
record linking to `G2`, the resulting edge runs from `G3` (the last row's
gene) to `G2`, and no edge runs from `G1` to `G2` as the claim requires. -/
theorem c5_ppi_pass_uses_stale_gene_label :
    (generate_networkx_graph c5_tbl none).map (fun gf =>
      ((edgesBetween gf (.vStr "G3") (.vStr "G2")).length,
       (edgesBetween gf (.vStr "G1") (.vStr "G2")).length)) = .ok (1, 0) := by
  decide

/-- Claim C6: the drug-disease pass is guarded by `"drug_diseases" in row`
where `row` is the stale last row of the original table, which lacks that
column; so although the drug-disease table is supplied and concatenated,
the third pass never runs and the returned graph has no edge at all. -/
theorem c6_drug_disease_pass_skipped :
    (generate_networkx_graph c6_tbl (some c6_dd)).map (fun gf => gf.edges.length)
      = .ok 0 := by
  decide

/-- Claim C7, counterexample: the claim says a malformed (non-list) cell is
always recovered as an empty record list and no exception escapes.  On a
one-row table whose `stringdb` cell is the NaN float sentinel, the
interaction pass recovers only `None`, so iterating the float raises and
`generate_networkx_graph` fails with a `TypeError`. -/
theorem c7_uniform_recovery_counterexample :
    generate_networkx_graph c7_badTbl none = .error .typeErr := by
  decide

/-- Claim C7, amended: the three dispatch sites recover differently.
Registry-column cells substitute an empty list for any non-list (both
`None` and a float), and a table whose registry cell is the NaN sentinel
builds fine; the interaction pass recovers only `None` and raises a
`TypeError` on a float; the drug-disease pass recovers only a float and
raises a `TypeError` on `None`. -/
theorem c7_per_pass_recovery :
    registryParse .cnull = [] ∧ registryParse .cfloat = []
    ∧ ppiParse .cnull = .ok [] ∧ ppiParse .cfloat = .error .typeErr
    ∧ ddParse .cfloat = .ok [] ∧ ddParse .cnull = .error .typeErr
    ∧ (∃ gf, generate_networkx_graph c7_okTbl none = .ok gf) :=
  ⟨rfl, rfl, rfl, rfl, rfl, rfl, ⟨_, rfl⟩⟩

/-- Claim C8: the claim says each optional Bgee field is stored with the
record field's own value.  For `confidence_level` the code stores the
record's `drugbank_id` value instead: on a record with
`confidence_level = "gold"` and `drugbank_id = "DB00999"`, the
anatomical-entity node's container carries
`confidence_level = "DB00999"`. -/
theorem c8_bgee_confidence_from_drugbank :
    (containerOf c8_res (.vStr "blood")).bind (fun c => aget c "confidence_level")
        = some (.scal (.vStr "DB00999"))
    ∧ rget c8_rec "confidence_level" = .vStr "gold" := by
  decide

/-- Claim C3: processing the same DisGeNET record twice for the same
(gene, disease) pair is idempotent: the second run changes nothing (no
second parallel edge, no overwrite), and exactly one edge between the
ordered pair carries the record's identity hash.  Hypotheses: the record
has a non-null disease name, every existing parallel edge between the
pair carries an identity (as every edge this system builds does), and
none of them already carries this record's identity. -/
theorem c3_disgenet_duplicate_insert_noop (g : Graph) (gl : Value) (dg : Record)
    (hname : pdIsna (rget dg "disease_name") = false)
    (hwf : ∀ e ∈ edgesBetween g gl (rget dg "disease_name"), hashOfEdgeData e.data ≠ none)
    (hnew : ∀ e ∈ edgesBetween g gl (rget dg "disease_name"),
      hashOfEdgeData e.data ≠ some (pyHash (disgenetEdgeAttrs dg))) :
    add_disgenet_disease_subgraph (add_disgenet_disease_subgraph g gl [dg]) gl [dg]
        = add_disgenet_disease_subgraph g gl [dg]
    ∧ ((edgesBetween (add_disgenet_disease_subgraph g gl [dg]) gl
          (rget dg "disease_name")).countP
        (fun e => hashOfEdgeData e.data == some (pyHash (disgenetEdgeAttrs dg)))) = 1 := by
  have hone : add_disgenet_disease_subgraph g gl [dg]
      = add_edge (add_node g (rget dg "disease_name") (disgenetNodeAttrs dg)) gl
          (rget dg "disease_name") (.vStr "associated_with")
          (withHash (disgenetEdgeAttrs dg)) := by
    have hd : dedupCheck (add_node g (rget dg "disease_name") (disgenetNodeAttrs dg)) gl
        (rget dg "disease_name") (pyHash (disgenetEdgeAttrs dg)) = false := by
      apply dedupCheck_eq_false
      intro e he
      rw [edgesBetween_add_node] at he
      exact hnew e he
    simp only [add_disgenet_disease_subgraph, List.foldl_cons, List.foldl_nil]
    rw [if_neg (by simp [hname]), if_neg (by simp [hd])]
  have hex1 : (add_disgenet_disease_subgraph g gl [dg]).nodes.any
      (fun p => p.1 == rget dg "disease_name") = true := by
    rw [hone]
    exact any_add_edge_mono _ _ _ _ _ _ (any_add_node_self g _ _)
  have hprop : ∀ p ∈ (add_disgenet_disease_subgraph g gl [dg]).nodes,
      p.1 = rget dg "disease_name" →
      aset p.2 "attr_dict" (AVal.dict (scalars (disgenetNodeAttrs dg))) = p.2 := by
    intro p hp hpl
    rw [hone, add_edge_nodes] at hp
    have h1 : p ∈ (ensureNode (add_node g (rget dg "disease_name") (disgenetNodeAttrs dg))
        gl).nodes :=
      mem_ensureNode _ _ _
        (any_ensureNode_mono _ _ _ (any_add_node_self g _ _)) p hp hpl
    have h2 : p ∈ (add_node g (rget dg "disease_name") (disgenetNodeAttrs dg)).nodes :=
      mem_ensureNode _ _ _ (any_add_node_self g _ _) p h1 hpl
    exact mem_add_node_self g _ _ p h2 hpl
  have hadd : add_node (add_disgenet_disease_subgraph g gl [dg])
      (rget dg "disease_name") (disgenetNodeAttrs dg)
      = add_disgenet_disease_subgraph g gl [dg] :=
    add_node_eq_self _ _ _ hex1 hprop
  have hd2 : dedupCheck (add_disgenet_disease_subgraph g gl [dg]) gl
      (rget dg "disease_name") (pyHash (disgenetEdgeAttrs dg)) = true := by
    rw [hone]
    exact dedupCheck_after_add _ _ _ _ _
  have htwo : ∀ g1 : Graph,
      g1.nodes.any (fun p => p.1 == rget dg "disease_name") = true →
      (∀ p ∈ g1.nodes, p.1 = rget dg "disease_name" →
        aset p.2 "attr_dict" (AVal.dict (scalars (disgenetNodeAttrs dg))) = p.2) →
      dedupCheck g1 gl (rget dg "disease_name") (pyHash (disgenetEdgeAttrs dg)) = true →
      add_disgenet_disease_subgraph g1 gl [dg] = g1 := by
    intro g1 hx hpr hdc
    simp only [add_disgenet_disease_subgraph, List.foldl_cons, List.foldl_nil]
    rw [if_neg (by simp [hname]), add_node_eq_self g1 _ _ hx hpr, if_pos hdc]
  have hcount : ((edgesBetween (add_disgenet_disease_subgraph g gl [dg]) gl
        (rget dg "disease_name")).countP
      (fun e => hashOfEdgeData e.data == some (pyHash (disgenetEdgeAttrs dg)))) = 1 := by
    rw [hone, edgesBetween_add_edge_self, edgesBetween_add_node, List.countP_append]
    have hz : ((edgesBetween g gl (rget dg "disease_name")).countP
        (fun e => hashOfEdgeData e.data == some (pyHash (disgenetEdgeAttrs dg)))) = 0 := by
      rw [List.countP_eq_zero]
      intro e he
      simpa using hnew e he
    rw [hz]
    simp [List.countP_cons, hashOf_new_edge]
  exact ⟨htwo _ hex1 hprop hd2, hcount⟩

/-- Claim C3, witness: the idempotence and single-edge count at a concrete
gene/record input over the one-gene-node graph. -/
theorem c3_disgenet_duplicate_insert_noop_witness :
    add_disgenet_disease_subgraph (add_disgenet_disease_subgraph gdemo (.vStr "G") [c1_rec1])
        (.vStr "G") [c1_rec1]
      = add_disgenet_disease_subgraph gdemo (.vStr "G") [c1_rec1]
    ∧ ((edgesBetween (add_disgenet_disease_subgraph gdemo (.vStr "G") [c1_rec1]) (.vStr "G")
          (rget c1_rec1 "disease_name")).countP
        (fun e => hashOfEdgeData e.data == some (pyHash (disgenetEdgeAttrs c1_rec1)))) = 1 :=
  c3_disgenet_duplicate_insert_noop gdemo (.vStr "G") c1_rec1
    (by decide) (by decide) (by decide)

theorem add_dd_nil (g : Graph) (gl : Value) : add_drug_disease_subgraph g gl [] = g := rfl

theorem add_dd_cons (g : Graph) (gl : Value) (dd : Record) (tl : List Record) :
    add_drug_disease_subgraph g gl (dd :: tl)
      = add_drug_disease_subgraph
          (if hasEdgeB g (rget dd "umls") gl then g
           else add_edge g (rget dd "umls") gl (.vStr "treated_with") (withHash ddEdgeAttrs))
          gl tl := by
  simp only [add_drug_disease_subgraph, List.foldl_cons]

theorem hasEdgeB_false_iff (g : Graph) (u v : Value) :
    hasEdgeB g u v = false ↔ edgesBetween g u v = [] := by
  unfold hasEdgeB
  simp [List.isEmpty_iff]

theorem hasEdgeB_true_iff (g : Graph) (u v : Value) :
    hasEdgeB g u v = true ↔ edgesBetween g u v ≠ [] := by
  unfold hasEdgeB
  simp [List.isEmpty_iff]

theorem edgesBetween_add_edge_sub (g : Graph) (u v lbl : Value) (attrs : Attrs)
    (x y : Value) (h : edgesBetween (add_edge g u v lbl attrs) x y = []) :
    edgesBetween g x y = [] := by
  by_cases hxy : x = u ∧ y = v
  · obtain ⟨hx, hy⟩ := hxy
    subst hx; subst hy
    rw [edgesBetween_add_edge_self] at h
    exact (List.append_eq_nil.mp h).1
  · rwa [edgesBetween_add_edge_ne g u v lbl attrs x y hxy] at h

theorem aget_edgeDataOf_label (lbl : Value) (attrs : Attrs) :
    aget (edgeDataOf lbl attrs) "label" = some (.flat (.scal lbl)) := by
  simp [edgeDataOf, aget]

theorem dd_fold_preserves (gl : Value) (tl : List Record) :
    ∀ (g : Graph) (u : Value), edgesBetween g u gl ≠ [] →
      edgesBetween (add_drug_disease_subgraph g gl tl) u gl = edgesBetween g u gl := by
  induction tl with
  | nil =>
    intro g u _
    rw [add_dd_nil]
  | cons dd t ih =>
    intro g u h
    rw [add_dd_cons]
    by_cases hc : hasEdgeB g (rget dd "umls") gl = true
    · rw [if_pos hc]
      exact ih g u h
    · rw [if_neg hc]
      have hnil : edgesBetween g (rget dd "umls") gl = [] :=
        (hasEdgeB_false_iff _ _ _).mp (Bool.eq_false_iff.mpr hc)
      by_cases huu : u = rget dd "umls"
      · rw [huu] at h
        exact absurd hnil h
      · have hne : edgesBetween (add_edge g (rget dd "umls") gl (.vStr "treated_with")
            (withHash ddEdgeAttrs)) u gl = edgesBetween g u gl :=
          edgesBetween_add_edge_ne _ _ _ _ _ _ _ (fun hh => huu hh.1)
        rw [ih _ u (by rw [hne]; exact h), hne]

/-- Claim C9: every edge added by `add_drug_disease_subgraph` runs from
the record's `umls` disease identifier to the gene label, is labelled
`treated_with`, and is inserted only when no edge of any kind already
existed between that ordered pair (plain edge-existence deduplication:
afterwards exactly one edge sits between the pair); and every processed
record leaves at least one edge between its pair. -/
theorem c9_drug_disease_direction_and_dedup (g : Graph) (gl : Value) (as : List Record) :
    (∀ e ∈ (add_drug_disease_subgraph g gl as).edges, e ∉ g.edges →
      e.tgt = gl
      ∧ (∃ dd ∈ as, e.src = rget dd "umls")
      ∧ aget e.data "label" = some (.flat (.scal (.vStr "treated_with")))
      ∧ edgesBetween g e.src gl = []
      ∧ (edgesBetween (add_drug_disease_subgraph g gl as) e.src gl).length = 1)
    ∧ (∀ dd ∈ as, edgesBetween (add_drug_disease_subgraph g gl as) (rget dd "umls") gl ≠ []) := by
  induction as generalizing g with
  | nil =>
    refine ⟨?_, ?_⟩
    · intro e he hne
      rw [add_dd_nil] at he
      exact absurd he hne
    · intro dd hdd
      exact absurd hdd (List.not_mem_nil dd)
  | cons dd tl ih =>
    by_cases hc : hasEdgeB g (rget dd "umls") gl = true
    · have hstep : add_drug_disease_subgraph g gl (dd :: tl)
          = add_drug_disease_subgraph g gl tl := by
        rw [add_dd_cons, if_pos hc]
      have hnonempty : edgesBetween g (rget dd "umls") gl ≠ [] :=
        (hasEdgeB_true_iff _ _ _).mp hc
      refine ⟨?_, ?_⟩
      · intro e he hne
        rw [hstep] at he
        obtain ⟨h1, ⟨dd', hdd', h2⟩, h3, h4, h5⟩ := (ih g).1 e he hne
        exact ⟨h1, ⟨dd', List.mem_cons_of_mem dd hdd', h2⟩, h3, h4, by rwa [hstep]⟩
      · intro dd' hdd'
        rcases List.mem_cons.mp hdd' with hEq | hmem
        · subst hEq
          rw [hstep, dd_fold_preserves gl tl g _ hnonempty]
          exact hnonempty
        · rw [hstep]
          exact (ih g).2 dd' hmem
    · have hnil : edgesBetween g (rget dd "umls") gl = [] :=
        (hasEdgeB_false_iff _ _ _).mp (Bool.eq_false_iff.mpr hc)
      have hstep : add_drug_disease_subgraph g gl (dd :: tl)
          = add_drug_disease_subgraph
              (add_edge g (rget dd "umls") gl (.vStr "treated_with") (withHash ddEdgeAttrs))
              gl tl := by
        rw [add_dd_cons, if_neg hc]
      have hg1edges := add_edge_edges g (rget dd "umls") gl (.vStr "treated_with")
        (withHash ddEdgeAttrs)
      have hEB1 : edgesBetween
          (add_edge g (rget dd "umls") gl (.vStr "treated_with") (withHash ddEdgeAttrs))
          (rget dd "umls") gl
          = [⟨rget dd "umls", gl, (edgesBetween g (rget dd "umls") gl).length,
              edgeDataOf (.vStr "treated_with") (withHash ddEdgeAttrs)⟩] := by
        rw [edgesBetween_add_edge_self, hnil]
        rfl
      have hfinal1 : edgesBetween (add_drug_disease_subgraph g gl (dd :: tl))
          (rget dd "umls") gl
          = [⟨rget dd "umls", gl, (edgesBetween g (rget dd "umls") gl).length,
              edgeDataOf (.vStr "treated_with") (withHash ddEdgeAttrs)⟩] := by
        rw [hstep, dd_fold_preserves gl tl _ _ (by rw [hEB1]; exact List.cons_ne_nil _ _), hEB1]
      refine ⟨?_, ?_⟩
      · intro e he hne
        rw [hstep] at he
        by_cases heg1 : e ∈ (add_edge g (rget dd "umls") gl (.vStr "treated_with")
            (withHash ddEdgeAttrs)).edges
        · rw [hg1edges] at heg1
          rcases List.mem_append.mp heg1 with hin | hone
          · exact absurd hin hne
          · have heq : e = ⟨rget dd "umls", gl, (edgesBetween g (rget dd "umls") gl).length,
                edgeDataOf (.vStr "treated_with") (withHash ddEdgeAttrs)⟩ := by
              simpa using hone
            refine ⟨by rw [heq], ⟨dd, List.mem_cons_self dd tl, by rw [heq]⟩, ?_, ?_, ?_⟩
            · rw [heq]
              exact aget_edgeDataOf_label _ _
            · rw [heq]
              exact hnil
            · rw [heq, hfinal1]
              rfl
        · obtain ⟨h1, ⟨dd', hdd', h2⟩, h3, h4, h5⟩ := (ih _).1 e he heg1
          refine ⟨h1, ⟨dd', List.mem_cons_of_mem dd hdd', h2⟩, h3, ?_, by rwa [hstep]⟩
          exact edgesBetween_add_edge_sub g _ gl _ _ _ _ h4
      · intro dd' hdd'
        rcases List.mem_cons.mp hdd' with hEq | hmem
        · subst hEq
          rw [hfinal1]
          exact List.cons_ne_nil _ _
        · rw [hstep]
          exact (ih _).2 dd' hmem

/-- Claim C9, witness: at a concrete record, processing leaves an edge
between the record's disease identifier and the gene label. -/
theorem c9_drug_disease_direction_and_dedup_witness :
    edgesBetween (add_drug_disease_subgraph gdemo (.vStr "G")
        [[("umls", Value.vStr "C0011849")]])
      (rget [("umls", Value.vStr "C0011849")] "umls") (.vStr "G") ≠ [] :=
  (c9_drug_disease_direction_and_dedup gdemo (.vStr "G")
      [[("umls", Value.vStr "C0011849")]]).2
    [("umls", Value.vStr "C0011849")] (List.mem_cons_self _ _)

theorem cellOf_error (r : Row) (c : String) (e : PyErr) (h : cellOf r c = .error e) :
    e = .keyErr := by
  unfold cellOf at h
  cases hg : aget r.cells c with
  | none =>
    rw [hg] at h
    injection h with h1
    exact h1.symm
  | some cell =>
    rw [hg] at h
    exact Except.noConfusion h

theorem ppiParse_error (cell : Cell) (e : PyErr) (h : ppiParse cell = .error e) :
    e = .typeErr := by
  cases cell with
  | clist l => exact Except.noConfusion h
  | cnull => exact Except.noConfusion h
  | cfloat =>
    injection h with h1
    exact h1.symm

theorem ddParse_error (cell : Cell) (e : PyErr) (h : ddParse cell = .error e) :
    e = .typeErr := by
  cases cell with
  | clist l => exact Except.noConfusion h
  | cfloat => exact Except.noConfusion h
  | cnull =>
    injection h with h1
    exact h1.symm

theorem ppiStep_error (glabel : Value) (g : Graph) (r : Row) (e : PyErr)
    (h : ppiStep glabel g r = .error e) : e ≠ .nameErr := by
  unfold ppiStep at h
  split at h
  next e1 heq =>
    injection h with h1
    rw [← h1, cellOf_error r _ e1 heq]
    exact fun hh => PyErr.noConfusion hh
  next cell heq =>
    split at h
    next e2 heq2 =>
      injection h with h1
      rw [← h1, ppiParse_error cell e2 heq2]
      exact fun hh => PyErr.noConfusion hh
    next l heq2 => exact Except.noConfusion h

theorem ddStep_error (g : Graph) (r : Row) (e : PyErr)
    (h : ddStep g r = .error e) : e ≠ .nameErr := by
  unfold ddStep at h
  split at h
  next e1 heq =>
    injection h with h1
    rw [← h1, cellOf_error r _ e1 heq]
    exact fun hh => PyErr.noConfusion hh
  next cell heq =>
    split at h
    next e2 heq2 =>
      injection h with h1
      rw [← h1, ddParse_error cell e2 heq2]
      exact fun hh => PyErr.noConfusion hh
    next l heq2 => exact Except.noConfusion h

theorem ppiPass_error (glabel : Value) :
    ∀ (rows : List Row) (g : Graph) (e : PyErr),
      ppiPass glabel g rows = .error e → e ≠ .nameErr := by
  intro rows
  induction rows with
  | nil =>
    intro g e h
    exact Except.noConfusion h
  | cons r t ih =>
    intro g e h
    unfold ppiPass at h
    cases hs : ppiStep glabel g r with
    | error e1 =>
      rw [hs] at h
      injection h with h1
      rw [← h1]
      exact ppiStep_error glabel g r e1 hs
    | ok g1 =>
      rw [hs] at h
      exact ih g1 e h

theorem ddPass_error :
    ∀ (rows : List Row) (g : Graph) (e : PyErr),
      ddPass g rows = .error e → e ≠ .nameErr := by
  intro rows
  induction rows with
  | nil =>
    intro g e h
    exact Except.noConfusion h
  | cons r t ih =>
    intro g e h
    unfold ddPass at h
    cases hs : ddStep g r with
    | error e1 =>
      rw [hs] at h
      injection h with h1
      rw [← h1]
      exact ddStep_error g r e1 hs
    | ok g1 =>
      rw [hs] at h
      exact ih g1 e h

theorem getLast?_some {α : Type} (a : α) (t : List α) :
    ∃ x, (a :: t).getLast? = some x := by
  induction t generalizing a with
  | nil => exact ⟨a, rfl⟩
  | cons b t ih =>
    obtain ⟨x, hx⟩ := ih b
    exact ⟨x, by rw [List.getLast?_cons_cons]; exact hx⟩

/-- Claim C10: on an empty table the post-loop membership test
`"stringdb" in row` reads the never-bound loop variable, so the call
fails with a `NameError`; on any table with at least one row that read is
well-defined and a `NameError` can no longer arise anywhere in the call. -/
theorem c10_empty_table_name_error (t : Table) (dd : Option Table) :
    (t.rows = [] → generate_networkx_graph t dd = .error .nameErr)
    ∧ (t.rows ≠ [] → generate_networkx_graph t dd ≠ .error .nameErr) := by
  constructor
  · intro h
    unfold generate_networkx_graph
    rw [h]
    rfl
  · intro h
    obtain ⟨rows⟩ := t
    cases rows with
    | nil => exact absurd rfl h
    | cons r0 rt =>
      obtain ⟨lastRow, hlast⟩ := getLast?_some r0 rt
      unfold generate_networkx_graph
      dsimp only
      split
      next heq =>
        rw [hlast] at heq
        exact fun _ => Option.noConfusion heq
      next lr heq =>
        split
        next e heq1 =>
          intro hcontra
          injection hcontra with h2
          subst h2
          split at heq1
          · exact (ppiPass_error _ _ _ _ heq1) rfl
          · exact Except.noConfusion heq1
        next g1 heq1 =>
          split
          next e2 heq2 =>
            intro hcontra
            injection hcontra with h2
            subst h2
            split at heq2
            · exact Except.noConfusion heq2
            · split at heq2
              · exact (ddPass_error _ _ _ heq2) rfl
              · exact Except.noConfusion heq2
          next g2 heq2 =>
            split
            next gf heq3 => exact fun hcontra => Except.noConfusion hcontra
            next heq3 =>
              intro hcontra
              injection hcontra with h4
              exact PyErr.noConfusion h4

/-- Claim C10, witness: the empty table fails with a `NameError` while a
one-row table does not. -/
theorem c10_empty_table_name_error_witness :
    generate_networkx_graph ⟨[]⟩ none = .error .nameErr
    ∧ generate_networkx_graph (⟨[mkRow "G0" []]⟩ : Table) none ≠ .error .nameErr :=
  ⟨(c10_empty_table_name_error ⟨[]⟩ none).1 rfl,
   (c10_empty_table_name_error ⟨[mkRow "G0" []]⟩ none).2 (by decide)⟩

theorem nfold_preserve (k : String) :
    ∀ (c : Attrs), (∀ q ∈ c, q.1 ≠ k) →
      ∀ d : Data, aget (c.foldl nstep d) k = aget d k := by
  intro c
  induction c with
  | nil => intro _ d; rfl
  | cons q t ih =>
    intro h d
    rw [List.foldl_cons]
    rw [ih (fun p hp => h p (List.mem_cons_of_mem _ hp)) (nstep d q)]
    unfold nstep
    by_cases hnull : (q.2 == HVal.scal Value.vNull) = true
    · rw [if_pos hnull]
    · rw [if_neg hnull]
      exact aget_aset_ne d q.1 k (.flat q.2)
        (fun hh => h q (List.mem_cons_self _ _) hh.symm)

theorem nfold_promotes (k : String) (v : HVal) (hv : v ≠ HVal.scal .vNull) :
    ∀ (c : Attrs), (c.map Prod.fst).Nodup → aget c k = some v →
      ∀ d : Data, aget (c.foldl nstep d) k = some (.flat v) := by
  intro c
  induction c with
  | nil => intro _ hget; exact absurd hget (by simp [aget])
  | cons q t ih =>
    intro hnd hget d
    rw [List.map_cons] at hnd
    have hcons := List.nodup_cons.mp hnd
    rw [List.foldl_cons]
    by_cases hqk : q.1 = k
    · have hv2 : q.2 = v := by
        have := hget
        simp only [aget, hqk, if_pos] at this
        simpa using this
      have hknot : ∀ p ∈ t, p.1 ≠ k := by
        intro p hp hpk
        apply hcons.1
        have hmem : p.1 ∈ t.map Prod.fst := List.mem_map_of_mem Prod.fst hp
        rwa [hpk, ← hqk] at hmem
      rw [nfold_preserve k t hknot (nstep d q)]
      unfold nstep
      rw [hv2, if_neg (by simpa using hv), hqk]
      exact aget_aset_self d k (.flat v)
    · have hget' : aget t k = some v := by
        have := hget
        simpa [aget, hqk] using this
      exact ih hcons.2 hget' (nstep d q)

theorem efold_preserve_keys (k : String) :
    ∀ (c : Attrs), (∀ q ∈ c, q.1 ≠ k) →
      ∀ d : Data, aget (c.foldl estep d) k = aget d k := by
  intro c
  induction c with
  | nil => intro _ d; rfl
  | cons q t ih =>
    intro h d
    rw [List.foldl_cons]
    rw [ih (fun p hp => h p (List.mem_cons_of_mem _ hp)) (estep d q)]
    unfold estep
    by_cases hskip : (q.2 == HVal.scal Value.vNull || q.1 == "edge_hash") = true
    · rw [if_pos hskip]
    · rw [if_neg hskip]
      exact aget_aset_ne d q.1 k (.flat q.2)
        (fun hh => h q (List.mem_cons_self _ _) hh.symm)

theorem efold_preserve_hash :
    ∀ (c : Attrs) (d : Data),
      aget (c.foldl estep d) "edge_hash" = aget d "edge_hash" := by
  intro c
  induction c with
  | nil => intro d; rfl
  | cons q t ih =>
    intro d
    rw [List.foldl_cons, ih (estep d q)]
    unfold estep
    by_cases hskip : (q.2 == HVal.scal Value.vNull || q.1 == "edge_hash") = true
    · rw [if_pos hskip]
    · rw [if_neg hskip]
      have hq : q.1 ≠ "edge_hash" := by
        intro hh
        exact hskip (by simp [hh])
      exact aget_aset_ne d q.1 "edge_hash" (.flat q.2) (fun hh => hq hh.symm)

theorem efold_promotes (k : String) (v : HVal) (hv : v ≠ HVal.scal .vNull)
    (hk : k ≠ "edge_hash") :
    ∀ (c : Attrs), (c.map Prod.fst).Nodup → aget c k = some v →
      ∀ d : Data, aget (c.foldl estep d) k = some (.flat v) := by
  intro c
  induction c with
  | nil => intro _ hget; exact absurd hget (by simp [aget])
  | cons q t ih =>
    intro hnd hget d
    rw [List.map_cons] at hnd
    have hcons := List.nodup_cons.mp hnd
    rw [List.foldl_cons]
    by_cases hqk : q.1 = k
    · have hv2 : q.2 = v := by
        have := hget
        simp only [aget, hqk, if_pos] at this
        simpa using this
      have hknot : ∀ p ∈ t, p.1 ≠ k := by
        intro p hp hpk
        apply hcons.1
        have hmem : p.1 ∈ t.map Prod.fst := List.mem_map_of_mem Prod.fst hp
        rwa [hpk, ← hqk] at hmem
      rw [efold_preserve_keys k t hknot (estep d q)]
      unfold estep
      rw [hv2, hqk, if_neg (by simp [hv, hk])]
      exact aget_aset_self d k (.flat v)
    · have hget' : aget t k = some v := by
        have := hget
        simpa [aget, hqk] using this
      exact ih hcons.2 hget' (estep d q)

theorem promoteNode_spec (d : Data) (c : Attrs)
    (hnd : (c.map Prod.fst).Nodup)
    (hcad : aget c "attr_dict" = none) (hceh : aget c "edge_hash" = none)
    (hdeh : aget d "edge_hash" = none) :
    aget (promoteNode d c) "attr_dict" = none
    ∧ aget (promoteNode d c) "edge_hash" = none
    ∧ ∀ k v, aget c k = some v → v ≠ HVal.scal .vNull →
        aget (promoteNode d c) k = some (.flat v) := by
  refine ⟨aget_adel_self _ _, ?_, ?_⟩
  · unfold promoteNode
    rw [aget_adel_ne _ _ _ (by decide)]
    rw [nfold_preserve _ _ ((aget_eq_none_iff _ _).mp hceh) d]
    exact hdeh
  · intro k v hget hv
    have hkad : k ≠ "attr_dict" := by
      intro hh
      rw [hh, hcad] at hget
      exact Option.noConfusion hget
    unfold promoteNode
    rw [aget_adel_ne _ _ _ hkad]
    exact nfold_promotes k v hv c hnd hget d

theorem promoteEdge_spec (d : Data) (c : Attrs)
    (hnd : (c.map Prod.fst).Nodup)
    (hcad : aget c "attr_dict" = none)
    (hdeh : aget d "edge_hash" = none) :
    aget (promoteEdge d c) "attr_dict" = none
    ∧ aget (promoteEdge d c) "edge_hash" = none
    ∧ ∀ k v, aget c k = some v → v ≠ HVal.scal .vNull → k ≠ "edge_hash" →
        aget (promoteEdge d c) k = some (.flat v) := by
  refine ⟨aget_adel_self _ _, ?_, ?_⟩
  · unfold promoteEdge
    rw [aget_adel_ne _ _ _ (by decide)]
    rw [efold_preserve_hash c d]
    exact hdeh
  · intro k v hget hv hk
    have hkad : k ≠ "attr_dict" := by
      intro hh
      rw [hh, hcad] at hget
      exact Option.noConfusion hget
    unfold promoteEdge
    rw [aget_adel_ne _ _ _ hkad]
    exact efold_promotes k v hv hk c hnd hget d

theorem finalizeNodeData_spec (d d' : Data) (hf : finalizeNodeData d = some d') :
    ∃ c, aget d "attr_dict" = some (.dict c) ∧ d' = promoteNode d c := by
  unfold finalizeNodeData at hf
  split at hf
  next c heq =>
    injection hf with h1
    exact ⟨c, heq, h1.symm⟩
  next heq => exact Option.noConfusion hf
  next heq => exact Option.noConfusion hf

theorem finalizeEdgeData_spec (d d' : Data) (hf : finalizeEdgeData d = some d') :
    (∃ c, aget d "attr_dict" = some (.dict c) ∧ d' = promoteEdge d c)
    ∨ (aget d "attr_dict" = none ∧ d' = d) := by
  unfold finalizeEdgeData at hf
  split at hf
  next c heq =>
    injection hf with h1
    exact Or.inl ⟨c, heq, h1.symm⟩
  next heq => exact Option.noConfusion hf
  next heq =>
    injection hf with h1
    exact Or.inr ⟨heq, h1.symm⟩

theorem omap_mem_rev {α β : Type} (f : α → Option β) :
    ∀ (l : List α) (l' : List β), omap f l = some l' →
      ∀ b ∈ l', ∃ a ∈ l, f a = some b := by
  intro l
  induction l with
  | nil =>
    intro l' h b hb
    injection h with h1
    rw [← h1] at hb
    exact absurd hb (List.not_mem_nil b)
  | cons a t ih =>
    intro l' h b hb
    unfold omap at h
    split at h
    next b0 bs hfa hot =>
      injection h with h1
      rw [← h1] at hb
      rcases List.mem_cons.mp hb with hb0 | hbs
      · exact ⟨a, List.mem_cons_self _ _, by rw [hfa, hb0]⟩
      · obtain ⟨a', ha', hfa'⟩ := ih bs hot b hbs
        exact ⟨a', List.mem_cons_of_mem _ ha', hfa'⟩
    next => exact Option.noConfusion h

theorem omap_mem {α β : Type} (f : α → Option β) :
    ∀ (l : List α) (l' : List β), omap f l = some l' →
      ∀ a ∈ l, ∃ b ∈ l', f a = some b := by
  intro l
  induction l with
  | nil =>
    intro l' _ a ha
    exact absurd ha (List.not_mem_nil a)
  | cons a0 t ih =>
    intro l' h a ha
    unfold omap at h
    split at h
    next b0 bs hfa hot =>
      injection h with h1
      rcases List.mem_cons.mp ha with ha0 | hat
      · exact ⟨b0, by rw [← h1]; exact List.mem_cons_self _ _, by rw [ha0, hfa]⟩
      · obtain ⟨b, hb, hfb⟩ := ih bs hot a hat
        exact ⟨b, by rw [← h1]; exact List.mem_cons_of_mem _ hb, hfb⟩
    next => exact Option.noConfusion h

/-- Claim C4: whenever the finalization pass of `generate_networkx_graph`
returns a graph, no node or edge of it retains the `attr_dict` container
key or the `edge_hash` identity key, and every non-null container entry
(except the edge identity) has been promoted to a top-level attribute.
Hypotheses describe the shapes this program stores: containers are
Python dicts (distinct keys) that do not themselves use the reserved
`attr_dict` key, node containers and top-level data do not use
`edge_hash`, and edge identities live only inside the container. -/
theorem c4_finalize_no_internal_keys (g g' : Graph)
    (hfin : finalizeGraph g = some g')
    (hnode : ∀ p ∈ g.nodes, aget p.2 "edge_hash" = none ∧
      ∀ c, aget p.2 "attr_dict" = some (AVal.dict c) →
        (c.map Prod.fst).Nodup ∧ aget c "attr_dict" = none ∧ aget c "edge_hash" = none)
    (hedge : ∀ e ∈ g.edges, aget e.data "edge_hash" = none ∧
      ∀ c, aget e.data "attr_dict" = some (AVal.dict c) →
        (c.map Prod.fst).Nodup ∧ aget c "attr_dict" = none) :
    (∀ p ∈ g'.nodes, aget p.2 "attr_dict" = none ∧ aget p.2 "edge_hash" = none)
    ∧ (∀ e ∈ g'.edges, aget e.data "attr_dict" = none ∧ aget e.data "edge_hash" = none)
    ∧ (∀ l d c, (l, d) ∈ g.nodes → aget d "attr_dict" = some (AVal.dict c) →
        ∀ k v, aget c k = some v → v ≠ HVal.scal .vNull →
          ∃ d', (l, d') ∈ g'.nodes ∧ aget d' k = some (.flat v))
    ∧ (∀ e ∈ g.edges, ∀ c, aget e.data "attr_dict" = some (AVal.dict c) →
        ∀ k v, aget c k = some v → v ≠ HVal.scal .vNull → k ≠ "edge_hash" →
          ∃ e' ∈ g'.edges, e'.src = e.src ∧ e'.tgt = e.tgt ∧ e'.key = e.key ∧
            aget e'.data k = some (.flat v)) := by
  unfold finalizeGraph at hfin
  split at hfin
  next ns es hns hes =>
    injection hfin with h1
    subst h1
    refine ⟨?_, ?_, ?_, ?_⟩
    · intro p hp
      obtain ⟨a, ha, hfa⟩ := omap_mem_rev _ g.nodes ns hns p hp
      cases hfd : finalizeNodeData a.2 with
      | none =>
        rw [hfd] at hfa
        exact Option.noConfusion hfa
      | some d2 =>
        rw [hfd] at hfa
        simp only [Option.map_some'] at hfa
        injection hfa with h2
        obtain ⟨c, hcad, hd2⟩ := finalizeNodeData_spec a.2 d2 hfd
        obtain ⟨hn1, hn2⟩ := hnode a ha
        obtain ⟨hnd, hcadc, hcehc⟩ := hn2 c hcad
        have hspec := promoteNode_spec a.2 c hnd hcadc hcehc hn1
        rw [← h2]
        exact ⟨by rw [hd2]; exact hspec.1, by rw [hd2]; exact hspec.2.1⟩
    · intro e' he'
      obtain ⟨e, hemem, hfe⟩ := omap_mem_rev _ g.edges es hes e' he'
      cases hfd : finalizeEdgeData e.data with
      | none =>
        rw [hfd] at hfe
        exact Option.noConfusion hfe
      | some d2 =>
        rw [hfd] at hfe
        simp only [Option.map_some'] at hfe
        injection hfe with h2
        obtain ⟨he1, he2⟩ := hedge e hemem
        rcases finalizeEdgeData_spec e.data d2 hfd with ⟨c, hcad, hd2⟩ | ⟨hnone, hd2⟩
        · obtain ⟨hnd, hcadc⟩ := he2 c hcad
          have hspec := promoteEdge_spec e.data c hnd hcadc he1
          rw [← h2]
          exact ⟨by rw [hd2]; exact hspec.1, by rw [hd2]; exact hspec.2.1⟩
        · rw [← h2]
          exact ⟨by rw [hd2]; exact hnone, by rw [hd2]; exact he1⟩
    · intro l d c hmem hcad k v hget hv
      obtain ⟨b, hb, hfb⟩ := omap_mem _ g.nodes ns hns (l, d) hmem
      cases hfd : finalizeNodeData d with
      | none =>
        rw [show finalizeNodeData (l, d).2 = finalizeNodeData d from rfl, hfd] at hfb
        exact Option.noConfusion hfb
      | some d2 =>
        rw [show finalizeNodeData (l, d).2 = finalizeNodeData d from rfl, hfd] at hfb
        simp only [Option.map_some'] at hfb
        injection hfb with h2
        obtain ⟨c2, hcad2, hd2⟩ := finalizeNodeData_spec d d2 hfd
        have hceq : c2 = c := by
          rw [hcad] at hcad2
          injection hcad2 with hx
          injection hx with hy
          exact hy.symm
        obtain ⟨hn1, hn2⟩ := hnode (l, d) hmem
        obtain ⟨hnd, hcadc, hcehc⟩ := hn2 c hcad
        have hspec := promoteNode_spec d c hnd hcadc hcehc hn1
        refine ⟨d2, ?_, ?_⟩
        · rw [← h2] at hb
          exact hb
        · rw [hd2, hceq]
          exact hspec.2.2 k v hget hv
    · intro e hemem c hcad k v hget hv hk
      obtain ⟨e', he', hfe⟩ := omap_mem _ g.edges es hes e hemem
      cases hfd : finalizeEdgeData e.data with
      | none =>
        rw [hfd] at hfe
        exact Option.noConfusion hfe
      | some d2 =>
        rw [hfd] at hfe
        simp only [Option.map_some'] at hfe
        injection hfe with h2
        rcases finalizeEdgeData_spec e.data d2 hfd with ⟨c2, hcad2, hd2⟩ | ⟨hnone, _⟩
        · have hceq : c2 = c := by
            rw [hcad] at hcad2
            injection hcad2 with hx
            injection hx with hy
            exact hy.symm
          obtain ⟨he1, he2⟩ := hedge e hemem
          obtain ⟨hnd, hcadc⟩ := he2 c hcad
          have hspec := promoteEdge_spec e.data c hnd hcadc he1
          refine ⟨e', he', ?_, ?_, ?_, ?_⟩
          · rw [← h2]
          · rw [← h2]
          · rw [← h2]
          · rw [← h2]
            show aget d2 k = some (.flat v)
            rw [hd2, hceq]
            exact hspec.2.2 k v hget hv hk
        · rw [hnone] at hcad
          exact Option.noConfusion hcad
  next => exact Option.noConfusion hfin

/-- Decidable form of the node-container well-formedness hypothesis. -/
def containerOkN (d : Data) : Bool :=
  match aget d "attr_dict" with
  | some (.dict c) =>
    decide ((c.map Prod.fst).Nodup) && (aget c "attr_dict" == none)
      && (aget c "edge_hash" == none)
  | _ => true

/-- Decidable form of the edge-container well-formedness hypothesis. -/
def containerOkE (d : Data) : Bool :=
  match aget d "attr_dict" with
  | some (.dict c) => decide ((c.map Prod.fst).Nodup) && (aget c "attr_dict" == none)
  | _ => true

theorem containerOkN_spec (d : Data) (hb : containerOkN d = true) :
    ∀ c, aget d "attr_dict" = some (AVal.dict c) →
      (c.map Prod.fst).Nodup ∧ aget c "attr_dict" = none ∧ aget c "edge_hash" = none := by
  intro c hc
  unfold containerOkN at hb
  rw [hc] at hb
  simp at hb
  exact ⟨hb.1.1, hb.1.2, hb.2⟩

theorem containerOkE_spec (d : Data) (hb : containerOkE d = true) :
    ∀ c, aget d "attr_dict" = some (AVal.dict c) →
      (c.map Prod.fst).Nodup ∧ aget c "attr_dict" = none := by
  intro c hc
  unfold containerOkE at hb
  rw [hc] at hb
  simp at hb
  exact ⟨hb.1, hb.2⟩

/-- Claim C4, witness: finalizing a one-node, one-edge graph built by the
DisGeNET builder yields attribute mappings free of the internal keys. -/
theorem c4_finalize_no_internal_keys_witness :
    ∃ gf, finalizeGraph c1_one = some gf
      ∧ (∀ p ∈ gf.nodes, aget p.2 "attr_dict" = none ∧ aget p.2 "edge_hash" = none)
      ∧ (∀ e ∈ gf.edges, aget e.data "attr_dict" = none ∧ aget e.data "edge_hash" = none) := by
  cases hf : finalizeGraph c1_one with
  | none => exact absurd hf (by decide)
  | some gf =>
    have hbn : ∀ p ∈ c1_one.nodes,
        aget p.2 "edge_hash" = none ∧ containerOkN p.2 = true := by decide
    have hbe : ∀ e ∈ c1_one.edges,
        aget e.data "edge_hash" = none ∧ containerOkE e.data = true := by decide
    have h := c4_finalize_no_internal_keys c1_one gf hf
      (fun p hp => ⟨(hbn p hp).1, containerOkN_spec p.2 (hbn p hp).2⟩)
      (fun e hee => ⟨(hbe e hee).1, containerOkE_spec e.data (hbe e hee).2⟩)
    exact ⟨gf, rfl, h.1, h.2.1⟩

end Biodatafuse
